import Mathlib

/-!
Verification of the stubs multi-domain reaction-network compiler and
block-structured time-stepping engine (src/stubs/model.py).

The Python code is shallowly embedded: floating point values are modelled by
exact rationals, Python exceptions by `Except String` (or a dedicated error
type), and dictionaries by association lists.  Each definition is named after
the source function it embeds.
-/

namespace Stubs

/-! ### Reaction topology (`Model._init_2_3_link_reaction_properties`, model.py lines 304-342)

The source collects `is_volume = [c.is_volume for c in reaction.compartments.values()]`
and dispatches on its length.  The three distinct raise sites (NotImplementedError
for two volumes, Exception for unsupported patterns, ValueError for a bad
compartment count) are modelled by a dedicated error type. -/

inductive TopologyError where
  /-- NotImplementedError: two volumes, the adjoining surface must be specified
  with reaction.explicit_restriction_to_domain -/
  | ambiguousTopology
  /-- Exception: two surfaces / three volumes / two or more surfaces -/
  | unsupportedTopology
  /-- ValueError: number of compartments involved in a flux must be in [1,2,3] -/
  | invalidCompartmentCount
deriving DecidableEq, Repr

/-- Embedding of the topology-classification part of
`_init_2_3_link_reaction_properties`: the input is the list of `is_volume`
flags of the compartments participating in one reaction. -/
def link_reaction_topology (is_volume : List Bool) : Except TopologyError String :=
  match is_volume with
  | [b] => if b then .ok "volume" else .ok "surface"
  | [a, b] =>
      if a && b then .error .ambiguousTopology
      else if !a && !b then .error .unsupportedTopology
      else .ok "volume_surface"
  | [a, b, c] =>
      let s := [a, b, c].count true
      if s = 3 then .error .unsupportedTopology
      else if s < 2 then .error .unsupportedTopology
      else .ok "volume_surface_volume"
  | _ => .error .invalidCompartmentCount

/-- The topology tag as the specification describes it: a function of the
number of participating compartments and of how many of them are volumes. -/
def topology_of_spec (is_volume : List Bool) : Except TopologyError String :=
  let n := is_volume.length
  let v := is_volume.count true
  if n = 1 then
    if v = 1 then .ok "volume" else .ok "surface"
  else if n = 2 then
    if v = 1 then .ok "volume_surface"
    else if v = 2 then .error .ambiguousTopology
    else .error .unsupportedTopology
  else if n = 3 then
    if v = 2 then .ok "volume_surface_volume"
    else if v = 3 then .error .unsupportedTopology
    else .error .unsupportedTopology
  else .error .invalidCompartmentCount

/-! ### Time-step controller (`check_dt_adjust`, `check_dt_pass_tfinal`,
and the time-advance prologue of `monolithic_solve`, model.py lines 880-954)

Controller state bundles the fields of `Model` that these routines read and
write.  `adjust_dt` embeds `config.solver["adjust_dt"]`, a possibly absent list
of (checkpoint time, new dt) pairs. -/

structure StepState where
  t : ℚ
  dt : ℚ
  tn : ℚ
  final_t : ℚ
  reset_dt : Bool
  adjust_dt : Option (List (ℚ × ℚ))
  idx : ℕ
deriving DecidableEq, Repr

/-- Embedding of `Model.set_dt` (the dolfin constant `dT` is backend state and
is not tracked). -/
def set_dt (dt : ℚ) (st : StepState) : StepState := { st with dt := dt }

/-- Embedding of `Model.check_dt_adjust` (model.py lines 887-922). -/
def check_dt_adjust (st : StepState) : Except String StepState :=
  -- check that there are reset times specified
  match st.adjust_dt with
  | none => .ok st
  | some [] => .ok st
  | some ((tadjust, dtadjust) :: rest) =>
      let tnow := st.t
      let tnext := tnow + st.dt
      -- if last time-step we passed a reset dt checkpoint then reset it now
      if st.reset_dt then
        .ok { set_dt dtadjust st with adjust_dt := some rest, reset_dt := false }
      else if tadjust < tnow then
        .error "AssertionError: tadjust is smaller than current time"
      else if tnow < tadjust ∧ tadjust ≤ tnext then
        -- never below dtadjust, to avoid very small time-steps
        .ok { set_dt (max (tadjust - tnow) dtadjust) st with reset_dt := true }
      else .ok st

/-- Embedding of `Model.check_dt_pass_tfinal` (model.py lines 924-932). -/
def check_dt_pass_tfinal (st : StepState) : StepState :=
  if st.t + st.dt > st.final_t then set_dt (st.final_t - st.t) st else st

/-- The dt-adjustment and time-advance prologue of `Model.monolithic_solve`
(model.py lines 943-954): bump the step index, run both dt checks, save the
previous time and advance `t` by `dt`. -/
def monolithic_time_advance (st : StepState) : Except String StepState := do
  let st1 ← check_dt_adjust { st with idx := st.idx + 1 }
  let st2 := check_dt_pass_tfinal st1
  pure { st2 with tn := st2.t, t := st2.t + st2.dt }

end Stubs

namespace Stubs

/-- **C1.** For every reaction, the derived topology tag is the stated function
of the `is_volume` flags of its participating compartments: one compartment
gives `volume`/`surface` by its flag; two compartments give `volume_surface`
when exactly one is a volume, an ambiguous-topology error when both are
volumes, an unsupported-topology error when both are surfaces; three
compartments give `volume_surface_volume` when exactly two are volumes and an
unsupported-topology error otherwise; any other compartment count is a fatal
error. -/
theorem link_reaction_topology_matches_spec :
    ∀ is_volume : List Bool,
      link_reaction_topology is_volume = topology_of_spec is_volume := by
  intro l
  match l with
  | [] => rfl
  | [a] => cases a <;> rfl
  | [a, b] => cases a <;> cases b <;> rfl
  | [a, b, c] => cases a <;> cases b <;> cases c <;> rfl
  | a :: b :: c :: d :: rest =>
      show Except.error _ = topology_of_spec _
      unfold topology_of_spec
      have h : (a :: b :: c :: d :: rest).length = rest.length + 4 := by
        simp [List.length]
      rw [h]
      rw [if_neg (by omega), if_neg (by omega), if_neg (by omega)]

/-- **C10.** When the configured checkpoint list is `None` or empty,
`check_dt_adjust` is a no-op on all controller state. -/
theorem check_dt_adjust_noop_without_checkpoints :
    ∀ st : StepState,
      st.adjust_dt = none ∨ st.adjust_dt = some [] →
      check_dt_adjust st = .ok st := by
  intro st h
  rcases h with h | h <;> simp [check_dt_adjust, h]

/-- Closed witness for `check_dt_adjust_noop_without_checkpoints`. -/
theorem check_dt_adjust_noop_witness :
    check_dt_adjust ⟨0, 1, 0, 10, false, none, 0⟩ =
      .ok ⟨0, 1, 0, 10, false, none, 0⟩ :=
  check_dt_adjust_noop_without_checkpoints ⟨0, 1, 0, 10, false, none, 0⟩ (Or.inl rfl)

/-- **C2.** With no pending reset flag and the earliest remaining checkpoint
`(t_adjust, dt_adjust)` satisfying `t < t_adjust ≤ t + dt`, the controller sets
the step size to `max (t_adjust - t) dt_adjust` and sets the pending-reset
flag; on the next call, the pending flag causes the step size to be set to
`dt_adjust`, the checkpoint to be consumed and the flag to be cleared.  In
particular, starting from time 9/10 with step size 1/5 and a checkpoint at
time 1 resetting to step size 1/20, the next step uses step size 1/10 and
reaches exactly time 1, and the following step uses step size 1/20. -/
theorem check_dt_adjust_checkpoint_behaviour :
    (∀ (st : StepState) (ta da : ℚ) (rest : List (ℚ × ℚ)),
      st.reset_dt = false →
      st.adjust_dt = some ((ta, da) :: rest) →
      st.t < ta → ta ≤ st.t + st.dt →
      check_dt_adjust st = .ok { st with dt := max (ta - st.t) da, reset_dt := true }) ∧
    (∀ (st : StepState) (ta da : ℚ) (rest : List (ℚ × ℚ)),
      st.reset_dt = true →
      st.adjust_dt = some ((ta, da) :: rest) →
      check_dt_adjust st = .ok { st with dt := da, adjust_dt := some rest, reset_dt := false }) ∧
    ((monolithic_time_advance ⟨9/10, 1/5, 0, 2, false, some [(1, 1/20)], 0⟩).map
        (fun s => (s.t, s.dt)) = .ok (1, 1/10)) ∧
    (((monolithic_time_advance ⟨9/10, 1/5, 0, 2, false, some [(1, 1/20)], 0⟩).bind
        monolithic_time_advance).map (fun s => (s.tn, s.t, s.dt)) =
      .ok (1, 21/20, 1/20)) := by
  refine ⟨?_, ?_, ?_, ?_⟩
  · intro st ta da rest hreset hadj hlt hle
    have hnot : ¬ ta < st.t := by exact not_lt.mpr (le_of_lt hlt)
    simp [check_dt_adjust, hadj, hreset, hnot, hlt, hle, set_dt]
  · intro st ta da rest hreset hadj
    simp [check_dt_adjust, hadj, hreset, set_dt]
  · norm_num [monolithic_time_advance, check_dt_adjust, check_dt_pass_tfinal,
      set_dt, Except.map, Except.bind, bind, pure, Except.pure, max_def]
  · norm_num [monolithic_time_advance, check_dt_adjust, check_dt_pass_tfinal,
      set_dt, Except.map, Except.bind, bind, pure, Except.pure, max_def]

/-- Closed witness for `check_dt_adjust_checkpoint_behaviour`. -/
theorem check_dt_adjust_checkpoint_witness :
    check_dt_adjust ⟨9/10, 1/5, 0, 2, false, some [(1, 1/20)], 0⟩ =
      .ok { (⟨9/10, 1/5, 0, 2, false, some [(1, 1/20)], 0⟩ : StepState) with
              dt := max ((1 : ℚ) - 9/10) (1/20), reset_dt := true } :=
  check_dt_adjust_checkpoint_behaviour.1
    ⟨9/10, 1/5, 0, 2, false, some [(1, 1/20)], 0⟩ 1 (1/20) [] rfl rfl
    (by norm_num) (by norm_num)

end Stubs

namespace Stubs

/-! ### Species slot indices (`Model._init_2_7_get_species_compartment_indices`,
model.py lines 392-398)

For each compartment the source walks `compartment.species.values()` (insertion
order of the name-keyed mapping) with a counter starting at 0 and assigns each
species its `dof_index`.  A compartment is modelled by the ordered list of its
species. -/

structure SpeciesRec where
  name : String
  dof_index : ℕ
deriving DecidableEq, Repr

/-- The inner loop of `_init_2_7_get_species_compartment_indices`: assign
`dof_index` values `idx, idx+1, ...` along the list. -/
def assign_dof_indices_from (idx : ℕ) : List SpeciesRec → List SpeciesRec
  | [] => []
  | s :: rest => { s with dof_index := idx } :: assign_dof_indices_from (idx + 1) rest

/-- Embedding of `_init_2_7_get_species_compartment_indices`: every compartment
(given as its ordered species list) restarts the counter at 0. -/
def get_species_compartment_indices (compartments : List (List SpeciesRec)) :
    List (List SpeciesRec) :=
  compartments.map (assign_dof_indices_from 0)

/-! ### Time-dependent parameters (`Model.update_time_dependent_parameters`,
model.py lines 980-1035)

Only the `expression`-typed branches are modelled; `from_data` parameters are
interpolated from tabulated data by the numpy backend.  `sym_expr` and
`preint_sym_expr` model the sympy expressions as functions of time. -/

inductive ParamType where
  | constant
  | expression
  | from_data
deriving DecidableEq, Repr

structure ParameterRec where
  is_time_dependent : Bool
  use_preintegration : Bool
  type : ParamType
  sym_expr : ℚ → ℚ
  preint_sym_expr : ℚ → ℚ
  value : ℚ

/-- Embedding of the per-parameter body of `update_time_dependent_parameters`
(model.py lines 1004-1035) for `expression`-typed parameters, with `t` the new
time, `tn` the previous time and `dt` the step size (`monolithic_solve` sets
`tn := t_old` and `t := t_old + dt` before the update). -/
def update_time_dependent_parameter (t tn dt : ℚ) (p : ParameterRec) : ParameterRec :=
  if ¬ p.is_time_dependent then p
  else if p.use_preintegration then
    match p.type with
    | .expression =>
        -- a = F(tn), b = F(t), new_value = (b - a)/dt
        { p with value := (p.preint_sym_expr t - p.preint_sym_expr tn) / dt }
    | _ => p
  else
    match p.type with
    | .expression => { p with value := p.sym_expr t }
    | _ => p

/-! ### Solution bookkeeping (`Model.update_solution`, model.py lines 1115-1128)

`model.u` is a name-keyed dictionary of mixed functions (keys "u" and "n");
each function is modelled as the list of its per-compartment sub-values.  The
Python default path computes `ukeys = set(self.u.keys()).remove("u")`: in
Python, `set.remove` mutates the set and returns `None`, so `ukeys` becomes
`None` and the subsequent `for ukey in ukeys` raises a `TypeError`. -/

structure SolutionState where
  u : List (String × List ℚ)
  num_active_compartments : ℕ
deriving DecidableEq, Repr

/-- `self.u[ukey].sub(idx).assign(self.u["u"].sub(idx))` for
`idx in range(n)`: overwrite the first `n` sub-values of `dst` with those of
`src`. -/
def assign_first_subvalues (n : ℕ) (src dst : List ℚ) : List ℚ :=
  src.take n ++ dst.drop n

/-- Replace the value stored under key `k` in the association list. -/
def set_assoc (k : String) (v : List ℚ) (u : List (String × List ℚ)) :
    List (String × List ℚ) :=
  u.map (fun p => if p.1 = k then (k, v) else p)

/-- The body of the `for ukey in ukeys` loop of `update_solution`. -/
def update_solution_loop : List String → SolutionState → Except String SolutionState
  | [], st => .ok st
  | k :: ks, st =>
      match st.u.lookup k with
      | none => .error "ValueError: key is not in model.u.keys"
      | some dst =>
          match st.u.lookup "u" with
          | none => .error "KeyError"
          | some src =>
              if st.num_active_compartments ≤ dst.length ∧
                  st.num_active_compartments ≤ src.length then
                update_solution_loop ks
                  { st with
                    u := set_assoc k
                      (assign_first_subvalues st.num_active_compartments src dst) st.u }
              else .error "IndexError"

/-- Embedding of `Model.update_solution` (model.py lines 1115-1128).  The
default call (`ukeys = None`) evaluates `set(self.u.keys()).remove("u")`,
which is `None`, and the following iteration over `None` raises `TypeError`. -/
def update_solution (ukeys : Option (List String)) (st : SolutionState) :
    Except String SolutionState :=
  match ukeys with
  | none => .error "TypeError: NoneType object is not iterable"
  | some ks => update_solution_loop ks st

/-! ### SNES solve step (`Model.monolithic_solve`, model.py lines 959-966)

The PETSc backend is modelled as a queue of responses, one per external solve
invocation; each response carries the iteration count `its` taken by the solve
and the configured maximum `max_it`.  The source appends `solver.its` to
`self.idx_nl` and raises `AssertionError` when `self.idx_nl[-1] > max_it`. -/

structure SNESResult where
  its : ℕ
  max_it : ℕ
deriving DecidableEq, Repr

/-- Embedding of the SNES branch of `monolithic_solve`: pop exactly one backend
response, record the iteration count, and check it against the maximum. -/
def monolithic_snes_solve (queue : List SNESResult) (idx_nl : List ℕ) :
    Except String (List SNESResult × List ℕ) :=
  match queue with
  | [] => .error "backend unavailable"
  | r :: rest =>
      let idx_nl2 := idx_nl ++ [r.its]
      if r.its > r.max_it then .error "AssertionError"
      else .ok (rest, idx_nl2)

end Stubs

namespace Stubs

/-- **C9.** After the species-index assignment step, for every compartment with
`n` species the assigned `dof_index` values are exactly `0, 1, ..., n-1` in the
insertion order of the species mapping (hence pairwise distinct and contiguous
from 0), and the species themselves (names, order) are unchanged. -/
theorem species_dof_indices_are_range :
    ∀ compartments : List (List SpeciesRec),
      (get_species_compartment_indices compartments).map
          (fun c => c.map (fun s => s.dof_index)) =
        compartments.map (fun c => List.range c.length) ∧
      (get_species_compartment_indices compartments).map
          (fun c => c.map (fun s => s.name)) =
        compartments.map (fun c => c.map (fun s => s.name)) := by
  have hidx : ∀ (i : ℕ) (c : List SpeciesRec),
      (assign_dof_indices_from i c).map (fun s => s.dof_index) =
        List.range' i c.length := by
    intro i c
    induction c generalizing i with
    | nil => rfl
    | cons s rest ih =>
        simp [assign_dof_indices_from, List.range', ih]
  have hname : ∀ (i : ℕ) (c : List SpeciesRec),
      (assign_dof_indices_from i c).map (fun s => s.name) =
        c.map (fun s => s.name) := by
    intro i c
    induction c generalizing i with
    | nil => rfl
    | cons s rest ih => simp [assign_dof_indices_from, ih]
  intro compartments
  constructor
  · simp only [get_species_compartment_indices, List.map_map]
    refine List.map_congr_left ?_
    intro c _
    simp [hidx 0 c, List.range_eq_range']
  · simp only [get_species_compartment_indices, List.map_map]
    refine List.map_congr_left ?_
    intro c _
    exact hname 0 c

/-- **C7.** For every time-dependent expression-type parameter with
`use_preintegration` set, the per-step update assigns
`(F t - F tn) / dt` where `F` is the stored antiderivative; with
`t = tn + dt` and a constant rate `r t = c` (so `F t = c * t`), the updated
value is exactly `c` for every step size `dt > 0`. -/
theorem preintegrated_parameter_update :
    (∀ (p : ParameterRec) (t tn dt : ℚ),
      p.is_time_dependent = true →
      p.use_preintegration = true →
      p.type = .expression →
      (update_time_dependent_parameter t tn dt p).value =
        (p.preint_sym_expr t - p.preint_sym_expr tn) / dt) ∧
    (∀ (p : ParameterRec) (c tn dt : ℚ),
      p.is_time_dependent = true →
      p.use_preintegration = true →
      p.type = .expression →
      p.preint_sym_expr = (fun s => c * s) →
      0 < dt →
      (update_time_dependent_parameter (tn + dt) tn dt p).value = c) := by
  constructor
  · intro p t tn dt htd hpre htype
    simp [update_time_dependent_parameter, htd, hpre, htype]
  · intro p c tn dt htd hpre htype hF hdt
    simp only [update_time_dependent_parameter, htd, hpre, htype, Bool.not_true,
      Bool.false_eq_true, if_false, if_true]
    rw [hF]
    field_simp
    ring

/-- Closed witness for `preintegrated_parameter_update`: a constant rate 3
(antiderivative `fun s => 3 * s`) is reproduced exactly with step size 1/2. -/
theorem preintegrated_parameter_witness :
    (update_time_dependent_parameter (0 + 1/2) 0 (1/2)
      ⟨true, true, .expression, fun _ => 3, fun s => 3 * s, 0⟩).value = 3 :=
  preintegrated_parameter_update.2
    ⟨true, true, .expression, fun _ => 3, fun s => 3 * s, 0⟩ 3 0 (1/2)
    rfl rfl rfl rfl (by norm_num)

/-- **C3 (code bug).** The default path of `update_solution` — the one
`monolithic_solve` takes after every successful solve — raises `TypeError`
instead of copying the solved field "u" into the previous-step slot "n":
`set(self.u.keys()).remove("u")` is `None` in Python.  An explicit call with
`ukeys = ["n"]` performs the intended copy, confirming the claim describes the
intent of the surrounding code and documentation. -/
theorem update_solution_default_path_raises :
    (∀ st : SolutionState, update_solution none st =
      .error "TypeError: NoneType object is not iterable") ∧
    update_solution (some ["n"]) ⟨[("u", [5, 7]), ("n", [0, 0])], 2⟩ =
      .ok ⟨[("u", [5, 7]), ("n", [5, 7])], 2⟩ := by
  constructor
  · intro st; rfl
  · rfl

/-- **C8 (amended).** Per time step exactly one external nonlinear-solve
invocation is made (one backend response consumed) and its iteration count is
appended to the record; the step is reported as a non-convergence error
whenever the recorded count strictly exceeds the configured maximum, and is
accepted otherwise. -/
theorem snes_solve_step_records_and_checks :
    (∀ (r : SNESResult) (rest : List SNESResult) (idx_nl : List ℕ),
      r.its ≤ r.max_it →
      monolithic_snes_solve (r :: rest) idx_nl = .ok (rest, idx_nl ++ [r.its])) ∧
    (∀ (r : SNESResult) (rest : List SNESResult) (idx_nl : List ℕ),
      r.its > r.max_it →
      monolithic_snes_solve (r :: rest) idx_nl = .error "AssertionError") := by
  constructor
  · intro r rest idx_nl h
    simp [monolithic_snes_solve, Nat.not_lt.mpr h]
  · intro r rest idx_nl h
    simp [monolithic_snes_solve, h]

/-- Closed witness for `snes_solve_step_records_and_checks`. -/
theorem snes_solve_step_witness :
    monolithic_snes_solve [⟨3, 50⟩] [] = .ok ([], [3]) ∧
    monolithic_snes_solve [⟨51, 50⟩] [] = .error "AssertionError" :=
  ⟨snes_solve_step_records_and_checks.1 ⟨3, 50⟩ [] [] (by norm_num),
   snes_solve_step_records_and_checks.2 ⟨51, 50⟩ [] [] (by norm_num)⟩

/-- **C8 counterexample.** The claim as stated is false on the code: a solve
whose iteration count reaches (equals) the backend maximum is accepted
silently, not reported as an error — the source only raises on a strictly
greater count. -/
theorem snes_max_iterations_not_reported :
    monolithic_snes_solve [⟨50, 50⟩] [] = .ok ([], [50]) ∧
    ∀ e, monolithic_snes_solve [⟨50, 50⟩] [] ≠ .error e := by
  constructor
  · rfl
  · intro e h
    simp [monolithic_snes_solve] at h

end Stubs

namespace Stubs

/-! ### Namespace validation (`Model._init_1_2_check_namespace_conflicts`,
model.py lines 212-241)

The four entity containers are name-keyed dictionaries; a container is
modelled by its ordered key list.  The source compares the sum of the four
container sizes with the cardinality of the union of their key sets, then
checks the union against the protected names, then checks compartment cell
markers (a scalar marker is the singleton list). -/

def protected_names : List String := ["x[0]", "x[1]", "x[2]", "t", "unit_scale_factor"]

/-- The inner marker loop: walk one compartment marker list, extending the
running set of seen markers. -/
def check_marker_list (markers : List Int) (all_markers : List Int) :
    Except String (List Int) :=
  match markers with
  | [] => .ok all_markers
  | m :: rest =>
      if m ∈ all_markers then .error "ValueError: two compartments have the same marker"
      else if m = 0 then .error "ValueError: marker cannot have the value 0"
      else check_marker_list rest (all_markers ++ [m])

/-- The outer marker loop over all compartments. -/
def check_all_markers (compartment_markers : List (List Int)) (all_markers : List Int) :
    Except String Unit :=
  match compartment_markers with
  | [] => .ok ()
  | ml :: rest =>
      match check_marker_list ml all_markers with
      | .error e => .error e
      | .ok acc => check_all_markers rest acc

/-- Embedding of `_init_1_2_check_namespace_conflicts` over the key lists of
the parameter, species, compartment and reaction containers and the
compartment marker lists. -/
def check_namespace_conflicts (pc sc cc rc : List String)
    (compartment_markers : List (List Int)) : Except String Unit :=
  let all_keys := (pc ++ sc ++ cc ++ rc).dedup
  if pc.length + sc.length + cc.length + rc.length ≠ all_keys.length then
    .error "ValueError: model has a namespace conflict"
  else if ∃ n ∈ protected_names, n ∈ all_keys then
    .error "ValueError: an object is using a protected variable name"
  else
    check_all_markers compartment_markers []

/-- The initialization call sequence of `Model.initialize` and its
`_init_1` ... `_init_5` bodies (model.py lines 136-193), in source order. -/
def initialization_step_order : List String :=
  [ "_init_1_1_check_mesh_dimensionality"
  , "_init_1_2_check_namespace_conflicts"
  , "_init_1_3_check_parameter_dimensionality"
  , "_init_2_1_reactions_to_symbolic_strings"
  , "_init_2_2_check_reaction_validity"
  , "_init_2_3_link_reaction_properties"
  , "_init_2_4_check_for_unused_parameters_species_compartments"
  , "_init_2_5_link_compartments_to_species"
  , "_init_2_6_link_species_to_compartments"
  , "_init_2_7_get_species_compartment_indices"
  , "_init_3_1_define_child_meshes"
  , "_init_3_2_read_parent_mesh_functions_from_file"
  , "_init_3_3_extract_submeshes"
  , "_init_3_4_build_submesh_mappings"
  , "_init_3_5_get_child_mesh_intersections"
  , "_init_3_6_get_intersection_submeshes"
  , "_init_3_7_get_integration_measures"
  , "_init_4_0_initialize_dolfin_parameters"
  , "_init_4_1_get_active_compartments"
  , "_init_4_2_define_dolfin_function_spaces"
  , "_init_4_3_define_dolfin_functions"
  , "_init_4_4_get_species_u_v_V_dofmaps"
  , "_init_4_5_name_functions"
  , "_init_4_6_check_dolfin_function_validity"
  , "_init_4_7_set_initial_conditions"
  , "_init_5_1_reactions_to_fluxes"
  , "_init_5_2_create_variational_forms"
  , "_init_5_3_setup_variational_problem_and_solver" ]

end Stubs

namespace Stubs

/-- A list deduplicates to its own length exactly when it has no duplicate. -/
theorem dedup_length_eq_iff {l : List String} : l.dedup.length = l.length ↔ l.Nodup := by
  constructor
  · intro h
    have heq := (List.dedup_sublist l).eq_of_length h
    rw [← heq]
    exact l.nodup_dedup
  · intro h
    rw [List.dedup_eq_self.mpr h]

/-- **C5.** If two entities of any kind share a name, or any entity uses a
reserved name, the namespace check of the validation phase fails; conversely a
model that passes the check has pairwise-distinct entity names disjoint from
the reserved set.  The namespace check runs in initialization step 1, before
reactions are compiled to fluxes in step 5. -/
theorem namespace_conflicts_block_initialization :
    (∀ (pc sc cc rc : List String) (markers : List (List Int)),
      (¬ (pc ++ sc ++ cc ++ rc).Nodup ∨
        ∃ n ∈ protected_names, n ∈ pc ++ sc ++ cc ++ rc) →
      ∃ e, check_namespace_conflicts pc sc cc rc markers = .error e) ∧
    (∀ (pc sc cc rc : List String) (markers : List (List Int)),
      check_namespace_conflicts pc sc cc rc markers = .ok () →
      (pc ++ sc ++ cc ++ rc).Nodup ∧
        ∀ n ∈ protected_names, n ∉ pc ++ sc ++ cc ++ rc) ∧
    initialization_step_order.indexOf "_init_1_2_check_namespace_conflicts" <
      initialization_step_order.indexOf "_init_5_1_reactions_to_fluxes" := by
  have hlen : ∀ pc sc cc rc : List String,
      (pc ++ sc ++ cc ++ rc).length = pc.length + sc.length + cc.length + rc.length := by
    intro pc sc cc rc
    simp [List.length_append]
    omega
  refine ⟨?_, ?_, by decide⟩
  · intro pc sc cc rc markers h
    simp only [check_namespace_conflicts]
    split_ifs with h1 h2
    · exact ⟨_, rfl⟩
    · exact ⟨_, rfl⟩
    · exfalso
      push_neg at h1
      have hnodup : (pc ++ sc ++ cc ++ rc).Nodup := by
        rw [← dedup_length_eq_iff, hlen pc sc cc rc]
        exact h1.symm
      rcases h with h | ⟨n, hn, hmem⟩
      · exact h hnodup
      · exact h2 ⟨n, hn, List.mem_dedup.mpr hmem⟩
  · intro pc sc cc rc markers h
    simp only [check_namespace_conflicts] at h
    split_ifs at h with h1 h2
    · push_neg at h1
      have hnodup : (pc ++ sc ++ cc ++ rc).Nodup := by
        rw [← dedup_length_eq_iff, hlen pc sc cc rc]
        exact h1.symm
      refine ⟨hnodup, ?_⟩
      intro n hn hmem
      exact h2 ⟨n, hn, List.mem_dedup.mpr hmem⟩

/-- Closed witness for `namespace_conflicts_block_initialization`: a species
named like a parameter is rejected. -/
theorem namespace_conflicts_witness :
    ∃ e, check_namespace_conflicts ["kf"] ["kf"] [] [] [] = .error e :=
  namespace_conflicts_block_initialization.1 ["kf"] ["kf"] [] [] []
    (Or.inl (by decide))

end Stubs

namespace Stubs

/-! ### Mass-action compilation (`Model._init_2_1_reactions_to_symbolic_strings`,
model.py lines 251-287, and `_init_5_1_reactions_to_fluxes`, lines 678-682)

A reaction is modelled by its name-level fields; `param_on`/`param_off` are
`param_map["on"]` and `param_map["off"]`, the names of the rate parameters.
`_parse_custom_reaction` performs sympy parsing and substitution and is
modelled by an abstract `parse` function; the custom reaction database is an
association list from reaction-type key to rate-law template. -/

structure ReactionDef where
  name : String
  reaction_type : String
  lhs : List String
  rhs : List String
  param_on : String
  param_off : String
  eqn_f_str : String
  eqn_r_str : String
deriving DecidableEq, Repr

/-- The rate-string loop of `_init_2_1_reactions_to_symbolic_strings`: start
from the rate parameter name and append `"*" + species_name` for each
species. -/
def mass_action_eqn (param : String) (species : List String) : String :=
  species.foldl (fun s sp => s ++ "*" ++ sp) param

/-- Embedding of `_init_2_1_reactions_to_symbolic_strings` for one reaction. -/
def reactions_to_symbolic_strings (parse : String → String)
    (reaction_database : List (String × String)) (r : ReactionDef) :
    Except String ReactionDef :=
  if r.reaction_type = "mass_action" then
    .ok { r with eqn_f_str := mass_action_eqn r.param_on r.lhs,
                 eqn_r_str := mass_action_eqn r.param_off r.rhs }
  else if r.reaction_type = "mass_action_forward" then
    .ok { r with eqn_f_str := mass_action_eqn r.param_on r.lhs }
  else
    match reaction_database.lookup r.reaction_type with
    | some template => .ok { r with eqn_f_str := parse template }
    | none =>
        if r.eqn_f_str ≠ "" ∨ r.eqn_r_str ≠ "" then
          .ok { r with
            eqn_f_str := if r.eqn_f_str ≠ "" then parse r.eqn_f_str else r.eqn_f_str,
            eqn_r_str := if r.eqn_r_str ≠ "" then parse r.eqn_r_str else r.eqn_r_str }
        else .error "ValueError: reaction does not seem to have an associated equation"

structure FluxRec where
  destination_species : String
  sign : Int
  eqn : String
deriving DecidableEq, Repr

/-- Modelled from the spec: `Reaction.reaction_to_fluxes` is defined in
`stubs/model_assembly.py`, which is not under src/ (only its caller
`_init_5_1_reactions_to_fluxes` is).  Spec 4.2: each compiled rate expression
is split into one Flux per species it affects, with sign +1 on the product
side and -1 on the reactant side; for a reversible mass-action reaction the
reverse expression contributes with the opposite signs. -/
def reaction_to_fluxes (r : ReactionDef) : List FluxRec :=
  (if r.eqn_f_str ≠ "" then
    r.lhs.map (fun sp => ⟨sp, -1, r.eqn_f_str⟩) ++
      r.rhs.map (fun sp => ⟨sp, 1, r.eqn_f_str⟩)
  else []) ++
  (if r.eqn_r_str ≠ "" then
    r.lhs.map (fun sp => ⟨sp, 1, r.eqn_r_str⟩) ++
      r.rhs.map (fun sp => ⟨sp, -1, r.eqn_r_str⟩)
  else [])

end Stubs

namespace Stubs

/-- The characters of a mass-action rate string are exactly the rate parameter
name followed by a star and a copy of each species name: no other
names occur in it. -/
theorem mass_action_eqn_chars :
    ∀ (species : List String) (param : String),
      (mass_action_eqn param species).data =
        param.data ++ (species.map (fun sp => '*' :: sp.data)).flatten := by
  intro species
  induction species with
  | nil => intro param; simp [mass_action_eqn]
  | cons a rest ih =>
      intro param
      have hstep : mass_action_eqn param (a :: rest) =
          mass_action_eqn (param ++ "*" ++ a) rest := rfl
      rw [hstep, ih]
      simp [String.data_append]

/-- **C6.** For a mass-action reaction the compiled forward rate string is the
"on" parameter multiplied by each reactant name and (if reversible) the
reverse rate string is the "off" parameter multiplied by each product name,
introducing no new names; a mass-action reaction `A + B -> C` with rate
parameter `k` compiles to the flux list with exactly two reactant-side fluxes
of sign -1 and one product-side flux of sign +1, each of magnitude `k*A*B`. -/
theorem mass_action_reaction_compilation :
    (∀ (parse : String → String) (db : List (String × String)) (r : ReactionDef),
      r.reaction_type = "mass_action" →
      ∃ r2, reactions_to_symbolic_strings parse db r = .ok r2 ∧
        r2.eqn_f_str.data =
          r.param_on.data ++ (r.lhs.map (fun sp => '*' :: sp.data)).flatten ∧
        r2.eqn_r_str.data =
          r.param_off.data ++ (r.rhs.map (fun sp => '*' :: sp.data)).flatten) ∧
    (∀ (parse : String → String) (db : List (String × String)) (r : ReactionDef),
      r.reaction_type = "mass_action_forward" →
      ∃ r2, reactions_to_symbolic_strings parse db r = .ok r2 ∧
        r2.eqn_f_str.data =
          r.param_on.data ++ (r.lhs.map (fun sp => '*' :: sp.data)).flatten ∧
        r2.eqn_r_str = r.eqn_r_str) ∧
    (∃ r2, reactions_to_symbolic_strings id []
        ⟨"r1", "mass_action_forward", ["A", "B"], ["C"], "k", "", "", ""⟩ = .ok r2 ∧
      r2.eqn_f_str = "k*A*B" ∧
      reaction_to_fluxes r2 =
        [⟨"A", -1, "k*A*B"⟩, ⟨"B", -1, "k*A*B"⟩, ⟨"C", 1, "k*A*B"⟩]) := by
  refine ⟨?_, ?_, ?_⟩
  · intro parse db r htype
    refine ⟨({ r with
        eqn_f_str := mass_action_eqn r.param_on r.lhs,
        eqn_r_str := mass_action_eqn r.param_off r.rhs }), ?_, ?_, ?_⟩
    · simp [reactions_to_symbolic_strings, htype]
    · simp [mass_action_eqn_chars]
    · simp [mass_action_eqn_chars]
  · intro parse db r htype
    have hne : r.reaction_type ≠ "mass_action" := by
      rw [htype]; decide
    refine ⟨({ r with eqn_f_str := mass_action_eqn r.param_on r.lhs }), ?_, ?_, ?_⟩
    · simp [reactions_to_symbolic_strings, htype, hne]
    · simp [mass_action_eqn_chars]
    · simp
  · exact ⟨_, rfl, rfl, rfl⟩

/-- Closed witness for `mass_action_reaction_compilation`: the reversible
variant on the same species compiles both directions. -/
theorem mass_action_reaction_witness :
    ∃ r2, reactions_to_symbolic_strings id []
        ⟨"r1", "mass_action", ["A", "B"], ["C"], "kon", "koff", "", ""⟩ = .ok r2 ∧
      r2.eqn_f_str.data =
        ("kon" : String).data ++ ((["A", "B"] : List String).map
          (fun sp => '*' :: sp.data)).flatten ∧
      r2.eqn_r_str.data =
        ("koff" : String).data ++ ((["C"] : List String).map
          (fun sp => '*' :: sp.data)).flatten :=
  mass_action_reaction_compilation.1 id []
    ⟨"r1", "mass_action", ["A", "B"], ["C"], "kon", "koff", "", ""⟩ rfl

end Stubs

namespace Stubs

/-! ### Block system assembly (`Model.get_block_system`, model.py lines 740-825)

`d.extract_blocks`, `d.derivative`/`expand_derivatives` and
`sub_forms_by_domain` are dolfin/ufl backend operations; a ufl form is
modelled by the data the source inspects: its argument part index
(`Fi.arguments()[0].part()`), its emptiness flag (`Fi.empty()`) and its list
of per-domain subforms.  The derivative is an abstract parameter.  A compiled
`d.cpp.fem.Form(rank, 0)` placeholder or `d.Form(Fsub)` block entry is
modelled by `CompiledForm`. -/

structure SubForm where
  empty : Bool
  id : ℕ
deriving DecidableEq, Repr

structure UflForm where
  part : ℕ
  empty : Bool
  subs : List SubForm
deriving DecidableEq, Repr

structure FSpace where
  dim : ℕ
deriving DecidableEq, Repr

inductive CompiledForm where
  /-- `d.cpp.fem.Form(rank, 0)` -/
  | emptyPlaceholder (rank : ℕ)
  /-- `d.Form(sub)` -/
  | compiled (id : ℕ)
deriving DecidableEq, Repr

/-- The placeholder fill-in loop (`Ftemp[Fi.arguments()[0].part()] = Fi`);
an out-of-range part index raises `IndexError` as in Python. -/
def fill_form_parts : List UflForm → List (Option UflForm) →
    Except String (List (Option UflForm))
  | [], acc => .ok acc
  | f :: rest, acc =>
      if f.part < acc.length then fill_form_parts rest (acc.set f.part (some f))
      else .error "IndexError"

/-- Decomposition of one residual block into per-domain compiled forms, with
empty blocks and empty subforms replaced by rank-1 placeholders. -/
def residual_subforms : Option UflForm → List CompiledForm
  | none => [.emptyPlaceholder 1]
  | some f =>
      if f.empty then [.emptyPlaceholder 1]
      else f.subs.map (fun s => if s.empty then .emptyPlaceholder 1 else .compiled s.id)

/-- Decomposition of one Jacobian block; only a wholly empty block gets a
rank-2 placeholder (the source compiles Jacobian subforms unconditionally). -/
def jacobian_subforms (f : UflForm) : List CompiledForm :=
  if f.empty then [.emptyPlaceholder 2]
  else f.subs.map (fun s => CompiledForm.compiled s.id)

/-- Embedding of `Model.get_block_system`.  `Fblock` is the output of
`d.extract_blocks(Fsum)` and `u` the list of per-compartment solution
functions (one per active compartment); `deriv` models
`expand_derivatives(d.derivative(Fi, uj))`.  The two Python `assert`
statements are `AssertionError` results. -/
def get_block_system (deriv : UflForm → FSpace → UflForm)
    (Fblock : List UflForm) (u : List FSpace) :
    Except String (List (List CompiledForm) × List (List CompiledForm) × List ℕ) :=
  let J := Fblock.foldl (fun acc Fi => acc ++ u.map (fun uj => deriv Fi uj)) []
  Except.bind
    (if Fblock.length ≠ u.length then
      fill_form_parts Fblock (List.replicate u.length none)
    else .ok (Fblock.map some))
    (fun Fblock2 =>
      if J.length ≠ u.length * u.length then .error "AssertionError"
      else if Fblock2.length ≠ u.length then .error "AssertionError"
      else .ok (Fblock2.map residual_subforms, J.map jacobian_subforms,
        u.map (fun uj => uj.dim)))

end Stubs

namespace Stubs

/-- Inversion for a successful `Except.bind`. -/
theorem except_bind_eq_ok {α β : Type} {x : Except String α}
    {f : α → Except String β} {b : β} :
    Except.bind x f = .ok b → ∃ a, x = .ok a ∧ f a = .ok b := by
  cases x with
  | error e => intro h; simp [Except.bind] at h
  | ok a => intro h; exact ⟨a, rfl, h⟩

/-- The fill-in loop succeeds when every part index is in range. -/
theorem fill_form_parts_ok (fs : List UflForm) :
    ∀ acc : List (Option UflForm), (∀ f ∈ fs, f.part < acc.length) →
      ∃ res, fill_form_parts fs acc = .ok res := by
  induction fs with
  | nil => intro acc _; exact ⟨acc, rfl⟩
  | cons f rest ih =>
      intro acc h
      have hf : f.part < acc.length := h f (List.mem_cons_self f rest)
      simp only [fill_form_parts, if_pos hf]
      refine ih (acc.set f.part (some f)) ?_
      intro g hg
      rw [List.length_set]
      exact h g (List.mem_cons_of_mem f hg)

/-- Length of the Jacobian list built by the nested `for Fi in Fblock: for uj
in u` loops. -/
theorem jacobian_list_length (deriv : UflForm → FSpace → UflForm) (u : List FSpace) :
    ∀ (fs : List UflForm) (init : List UflForm),
      (fs.foldl (fun acc Fi => acc ++ u.map (fun uj => deriv Fi uj)) init).length =
        init.length + fs.length * u.length := by
  intro fs
  induction fs with
  | nil => intro init; simp
  | cons f rest ih =>
      intro init
      rw [List.foldl_cons, ih]
      simp [List.length_append, List.length_map]
      ring

/-- **C4.** Whenever `get_block_system` returns a block system, the number of
residual blocks equals the number of active compartments and the number of
Jacobian blocks equals its square; a count violation (a missing extracted
block) is a fatal internal assertion error; and in the uniform case every
extracted block, including empty ones, is represented by an explicit entry
(empty blocks by placeholder lists) so block-index arithmetic stays uniform. -/
theorem block_system_counts :
    (∀ (deriv : UflForm → FSpace → UflForm) (Fblock : List UflForm) (u : List FSpace)
        (Flist Jlist : List (List CompiledForm)) (sizes : List ℕ),
      get_block_system deriv Fblock u = .ok (Flist, Jlist, sizes) →
      Flist.length = u.length ∧ Jlist.length = u.length * u.length) ∧
    (∀ (deriv : UflForm → FSpace → UflForm) (Fblock : List UflForm) (u : List FSpace),
      Fblock.length ≠ u.length → 0 < u.length →
      (∀ f ∈ Fblock, f.part < u.length) →
      get_block_system deriv Fblock u = .error "AssertionError") ∧
    (∀ (deriv : UflForm → FSpace → UflForm) (Fblock : List UflForm) (u : List FSpace)
        (Flist Jlist : List (List CompiledForm)) (sizes : List ℕ),
      get_block_system deriv Fblock u = .ok (Flist, Jlist, sizes) →
      Fblock.length = u.length →
      Flist = Fblock.map (fun f => residual_subforms (some f))) := by
  refine ⟨?_, ?_, ?_⟩
  · intro deriv Fblock u Flist Jlist sizes h
    simp only [get_block_system] at h
    obtain ⟨Fb2, hx, h⟩ := except_bind_eq_ok h
    by_cases h1 : (List.foldl (fun acc Fi => acc ++ List.map (fun uj => deriv Fi uj) u)
        [] Fblock).length ≠ u.length * u.length
    · rw [if_pos h1] at h
      simp at h
    · rw [if_neg h1] at h
      by_cases h2 : Fb2.length ≠ u.length
      · rw [if_pos h2] at h
        simp at h
      · rw [if_neg h2] at h
        push_neg at h1 h2
        simp only [Except.ok.injEq, Prod.mk.injEq] at h
        obtain ⟨hF, hJ, hs⟩ := h
        constructor
        · rw [← hF, List.length_map, h2]
        · rw [← hJ, List.length_map, h1]
  · intro deriv Fblock u hne hpos hparts
    obtain ⟨res, hres⟩ := fill_form_parts_ok Fblock (List.replicate u.length none)
      (by intro f hf; rw [List.length_replicate]; exact hparts f hf)
    have hJne : (Fblock.foldl (fun acc Fi => acc ++ u.map (fun uj => deriv Fi uj))
        []).length ≠ u.length * u.length := by
      rw [jacobian_list_length]
      simp only [List.length_nil, Nat.zero_add]
      intro hEq
      exact hne (Nat.eq_of_mul_eq_mul_right hpos hEq)
    simp only [get_block_system]
    rw [if_pos hne, hres]
    simp only [Except.bind]
    rw [if_pos hJne]
  · intro deriv Fblock u Flist Jlist sizes h heq
    simp only [get_block_system] at h
    rw [if_neg (by simp [heq])] at h
    simp only [Except.bind] at h
    by_cases h1 : (List.foldl (fun acc Fi => acc ++ List.map (fun uj => deriv Fi uj) u)
        [] Fblock).length ≠ u.length * u.length
    · rw [if_pos h1] at h
      simp at h
    · rw [if_neg h1] at h
      by_cases h2 : (List.map some Fblock).length ≠ u.length
      · rw [if_pos h2] at h
        simp at h
      · rw [if_neg h2] at h
        simp only [Except.ok.injEq, Prod.mk.injEq] at h
        rw [← h.1, List.map_map]
        rfl

/-- Closed witness for `block_system_counts`: a one-compartment system with a
single nonempty block. -/
theorem block_system_counts_witness :
    ∃ (Flist Jlist : List (List CompiledForm)) (sizes : List ℕ),
      get_block_system (fun f _ => f) [⟨0, false, [⟨false, 0⟩]⟩] [⟨3⟩] =
        .ok (Flist, Jlist, sizes) ∧ Flist.length = 1 ∧ Jlist.length = 1 := by
  have h : get_block_system (fun f _ => f) [⟨0, false, [⟨false, 0⟩]⟩]
      ([⟨3⟩] : List FSpace) =
      .ok ([[CompiledForm.compiled 0]], [[CompiledForm.compiled 0]], [3]) := rfl
  have hc := block_system_counts.1 (fun f _ => f) [⟨0, false, [⟨false, 0⟩]⟩]
    [⟨3⟩] [[CompiledForm.compiled 0]] [[CompiledForm.compiled 0]] [3] h
  exact ⟨_, _, _, h, hc.1, hc.2⟩

end Stubs
